import Mathlib

/-!
# Verification of the MapReader `Annotator` session engine

Shallow embedding of `src/mapreader/annotate/annotator.py` (class `Annotator`),
the interactive annotation session manager: session identity, resume merge,
eligibility queue and its cursor state machine, and context composition.

Conventions of the embedding:

* The pandas `DataFrame` rows are modelled as Lean lists of records; the row
  key (the DataFrame index) is a `String`.
* Python cell values that matter to the claims are modelled by small inductive
  types (`LCell` for label cells distinguishing `None`, `NaN` and strings,
  `PyVal` for `_eval_df` cells).
* Python list indexing (which accepts negative indices and raises `IndexError`
  otherwise) is modelled by `pyGet : List α → Int → Option α` with `none`
  standing for the raised `IndexError`.
* Fallible operations return `Option`/`Except`; `none`/`.error` stands for a
  raised Python exception.
-/

set_option autoImplicit false

namespace MapReader

/-! ## Python list indexing

`pyGet l i` models the Python expression `l[i]` on a `list`:
nonnegative indices `0 ≤ i < len(l)` return the element, negative indices
`-len(l) ≤ i < 0` count from the end, anything else raises `IndexError`
(modelled as `none`). -/

def pyGet {α : Type} (l : List α) (i : Int) : Option α :=
  if 0 ≤ i ∧ i < l.length then l.get? i.toNat
  else if -(l.length : Int) ≤ i ∧ i < 0 then l.get? (l.length + i).toNat
  else none

theorem pyGet_nonneg {α : Type} (l : List α) (i : Int) (h0 : 0 ≤ i)
    (h1 : i < l.length) : pyGet l i = l.get? i.toNat := by
  simp [pyGet, h0, h1]

theorem pyGet_out_of_range {α : Type} (l : List α) (i : Int)
    (h : (l.length : Int) ≤ i) : pyGet l i = none := by
  have h0 : ¬(0 ≤ i ∧ i < l.length) := by omega
  have h1 : ¬(-(l.length : Int) ≤ i ∧ i < 0) := by omega
  simp [pyGet, h0, h1]

theorem pyGet_neg_one {α : Type} (l : List α) (hne : l ≠ []) :
    pyGet l (-1) = some (l.getLast hne) := by
  have hlen : 0 < l.length := List.length_pos.mpr hne
  have h0 : ¬(0 ≤ (-1 : Int) ∧ (-1 : Int) < l.length) := by omega
  have h1 : -(l.length : Int) ≤ -1 ∧ (-1 : Int) < 0 := by omega
  have harith : ((l.length : Int) + -1).toNat = l.length - 1 := by omega
  simp only [pyGet, h0, if_false, h1, and_self, if_true, harith]
  rw [List.getLast_eq_getElem, List.get?_eq_getElem?,
    List.getElem?_eq_getElem (Nat.sub_lt hlen Nat.one_pos)]

/-! ## Queue navigation state machine

Embeds the mutable cursor state of the `Annotator` (`self._queue`,
`self.current_index`, `self.previous_index`) together with the data the
navigation methods read from the DataFrame: `paths` models
`self.at[ix, self.patch_paths_col]` and `nRows` models `len(self)`
(the number of rows of the DataFrame, which `render` compares against). -/

structure NavState where
  queue : List String
  paths : String → String
  nRows : Nat
  current_index : Int
  previous_index : Int

/-- Outcome of one `_next_example` / `_prev_example` call.

* `complete`: the method hit the `current_index == len(self._queue)` guard,
  called `render_complete()` and returned `None`.
* `indexError`: the expression `self._queue[self.current_index]` raised
  `IndexError` (the method never returns).
* `shown prev cur path sig`: the method returned the tuple
  `(previous_index, current_index, img_path)`; `sig` records whether the
  `render()` call it made hit the `current_index >= len(self) - 1` branch and
  therefore invoked `render_complete()`. -/
inductive NavOutcome where
  | complete
  | indexError
  | shown (prev cur : Int) (path : String) (sig : Bool)
  deriving DecidableEq, Repr

/-- `render`'s completion test: `self.current_index >= len(self) - 1`. -/
def renderSignalsComplete (s : NavState) : Bool :=
  s.current_index ≥ (s.nRows : Int) - 1

/-- Embedding of `Annotator._next_example` (annotator.py lines 759-780).

```python
if self.current_index == len(self._queue):
    self.render_complete()
    return
self.previous_index = self.current_index
self.current_index += 1
ix = self._queue[self.current_index]
img_path = self.at[ix, self.patch_paths_col]
self.render()
return self.previous_index, self.current_index, img_path
```

The index mutations happen before the queue subscript, so an `IndexError`
leaves the state with the already-updated indices. -/
def nextExample (s : NavState) : NavState × NavOutcome :=
  if s.current_index = (s.queue.length : Int) then (s, .complete)
  else
    let s' : NavState :=
      { s with previous_index := s.current_index,
               current_index := s.current_index + 1 }
    match pyGet s'.queue s'.current_index with
    | none => (s', .indexError)
    | some ix =>
        (s', .shown s'.previous_index s'.current_index (s'.paths ix)
          (renderSignalsComplete s'))

/-- Embedding of `Annotator._prev_example` (annotator.py lines 782-804).

```python
if self.current_index == len(self._queue):
    self.render_complete()
    return
if self.current_index > 0:
    self.previous_index = self.current_index
    self.current_index -= 1
ix = self._queue[self.current_index]
img_path = self.at[ix, self.patch_paths_col]
self.render()
return self.previous_index, self.current_index, img_path
```
-/
def prevExample (s : NavState) : NavState × NavOutcome :=
  if s.current_index = (s.queue.length : Int) then (s, .complete)
  else
    let s' : NavState :=
      if s.current_index > 0 then
        { s with previous_index := s.current_index,
                 current_index := s.current_index - 1 }
      else s
    match pyGet s'.queue s'.current_index with
    | none => (s', .indexError)
    | some ix =>
        (s', .shown s'.previous_index s'.current_index (s'.paths ix)
          (renderSignalsComplete s'))

/-- The state of a freshly built session: `__init__` sets
`self.current_index = -1`, `self.previous_index = 0` (lines 315-317);
`_annotate` resets `self.current_index = -1` before every pass. -/
def freshState (queue : List String) (paths : String → String) (nRows : Nat) :
    NavState :=
  { queue := queue, paths := paths, nRows := nRows,
    current_index := -1, previous_index := 0 }

/-- Iterated `advance()`: the state after `k` calls to `_next_example`,
discarding the returned tuples. -/
def advanceN (s : NavState) : Nat → NavState
  | 0 => s
  | k + 1 => (nextExample (advanceN s k)).1

theorem nextExample_queue (s : NavState) : ((nextExample s).1).queue = s.queue := by
  simp only [nextExample]
  split
  · rfl
  · split <;> rfl

theorem advanceN_queue (s : NavState) (k : Nat) : (advanceN s k).queue = s.queue := by
  induction k with
  | zero => rfl
  | succ k ih =>
      simp only [advanceN]
      rw [nextExample_queue, ih]

theorem nextExample_current (s : NavState)
    (hne : s.current_index ≠ (s.queue.length : Int)) :
    ((nextExample s).1).current_index = s.current_index + 1 := by
  simp only [nextExample, if_neg hne]
  split <;> rfl

/-- From the fresh state, each of the first `n = len(queue)` advances takes the
increment path, so after `k ≤ n` calls the cursor sits at `k - 1`. -/
theorem advanceN_fresh_current (queue : List String) (paths : String → String)
    (nRows : Nat) (k : Nat) (hk : k ≤ queue.length) :
    (advanceN (freshState queue paths nRows) k).current_index = (k : Int) - 1 := by
  induction k with
  | zero => rfl
  | succ k ih =>
      have hk' : k ≤ queue.length := Nat.le_of_succ_le hk
      have hcur := ih hk'
      have hq : (advanceN (freshState queue paths nRows) k).queue = queue :=
        advanceN_queue (freshState queue paths nRows) k
      have hne : (advanceN (freshState queue paths nRows) k).current_index
          ≠ ((advanceN (freshState queue paths nRows) k).queue.length : Int) := by
        rw [hcur, hq]; omega
      have := nextExample_current (advanceN (freshState queue paths nRows) k) hne
      simp only [advanceN]
      rw [this, hcur]; omega

theorem get?_exists_of_lt {α : Type} (l : List α) (m : Nat) (hm : m < l.length) :
    ∃ a, l.get? m = some a :=
  ⟨l.get ⟨m, hm⟩, List.get?_eq_get hm⟩

/-- **C1** (code_bug demonstration). The claim states that after exactly
`n = len(eligible_set)` successful `advance()` calls from a freshly built
queue the engine reports COMPLETE, that one further `advance()` is a no-op
re-signalling COMPLETE with **no index overflow**, and that an empty eligible
set yields an immediate COMPLETE on the first render.  The code violates
this: `_next_example` increments `current_index` *before* the subscript
`self._queue[self.current_index]`, so the `current_index == len(self._queue)`
guard is never reached by pure advancing.  Concretely: (a) with an empty
queue, the very first `advance()` raises `IndexError` instead of reporting
COMPLETE; (b) with a queue of length `n ≥ 1`, after `n` advances the cursor
sits at `n - 1` and the next `advance()` raises `IndexError` (an
out-of-range access into the queue) instead of being a COMPLETE no-op. -/
theorem c1_advance_past_exhaustion_raises (queue : List String)
    (paths : String → String) (nRows : Nat) :
    (queue = [] →
      (nextExample (freshState queue paths nRows)).2 = .indexError) ∧
    (queue ≠ [] →
      (advanceN (freshState queue paths nRows) queue.length).current_index
          = (queue.length : Int) - 1 ∧
      (nextExample (advanceN (freshState queue paths nRows)
          queue.length)).2 = .indexError) := by
  constructor
  · intro hq
    subst hq
    have hguard : ((-1 : Int) = (([] : List String).length : Int)) = False := by
      simp
    simp only [nextExample, freshState, hguard, if_false]
    have hz : pyGet ([] : List String) 0 = none := by
      apply pyGet_out_of_range; simp
    norm_num [hz]
  · intro hq
    have hlen : 0 < queue.length := List.length_pos.mpr hq
    have hcur := advanceN_fresh_current queue paths nRows queue.length le_rfl
    refine ⟨hcur, ?_⟩
    set t := advanceN (freshState queue paths nRows) queue.length with ht
    have htq : t.queue = queue := advanceN_queue _ _
    have hne : t.current_index ≠ (t.queue.length : Int) := by
      rw [hcur, htq]; omega
    have hoob : pyGet t.queue (t.current_index + 1) = none := by
      apply pyGet_out_of_range
      rw [hcur, htq]; omega
    simp only [nextExample, if_neg hne]
    simp [hoob]

/-- Witness for `c1_advance_past_exhaustion_raises`: a queue of one row,
advanced twice — the second `advance()` raises `IndexError`. -/
theorem c1_advance_past_exhaustion_raises_witness :
    (["k1"] : List String) ≠ [] ∧
    (nextExample (advanceN (freshState ["k1"] (fun _ => "p1.png") 1)
        (["k1"] : List String).length)).2 = NavOutcome.indexError := by
  refine ⟨by simp, ?_⟩
  exact ((c1_advance_past_exhaustion_raises ["k1"] (fun _ => "p1.png") 1).2
    (by simp)).2

/-- **C7** (confirmed). `retreat()` (`_prev_example`): at the terminal
position `current_index == len(queue)` it signals completion exactly like
`advance()`; otherwise with `current_index > 0` it saves the old cursor into
`previous_index`, decrements `current_index` and returns the new focal row's
path; at position 0 it leaves the state unchanged and returns the (unchanged)
focal row at position 0. -/
theorem c7_retreat_behaviour (s : NavState) :
    (s.current_index = (s.queue.length : Int) → prevExample s = (s, .complete)) ∧
    (0 < s.current_index → s.current_index < (s.queue.length : Int) →
      ∃ ix, pyGet s.queue (s.current_index - 1) = some ix ∧
        prevExample s =
          ({ s with previous_index := s.current_index,
                    current_index := s.current_index - 1 },
           .shown s.current_index (s.current_index - 1) (s.paths ix)
             (renderSignalsComplete
               { s with previous_index := s.current_index,
                        current_index := s.current_index - 1 }))) ∧
    (s.current_index = 0 → s.queue ≠ [] →
      ∃ ix, pyGet s.queue 0 = some ix ∧
        prevExample s = (s, .shown s.previous_index 0 (s.paths ix)
          (renderSignalsComplete s))) := by
  refine ⟨?_, ?_, ?_⟩
  · intro hterm
    simp [prevExample, hterm]
  · intro h0 hlt
    have hne : s.current_index ≠ (s.queue.length : Int) := by omega
    have hmem : (s.current_index - 1).toNat < s.queue.length := by omega
    obtain ⟨ix, hix⟩ := get?_exists_of_lt s.queue _ hmem
    have hpg : pyGet s.queue (s.current_index - 1) = some ix := by
      rw [pyGet_nonneg s.queue _ (by omega) (by omega)]
      exact hix
    refine ⟨ix, hpg, ?_⟩
    simp only [prevExample, if_neg hne, if_pos h0]
    simp [hpg]
  · intro h0 hq
    have hlen : 0 < s.queue.length := List.length_pos.mpr hq
    have hne : s.current_index ≠ (s.queue.length : Int) := by omega
    have hmem : (0 : Nat) < s.queue.length := hlen
    obtain ⟨ix, hix⟩ := get?_exists_of_lt s.queue 0 hmem
    have hpg : pyGet s.queue 0 = some ix := by
      rw [pyGet_nonneg s.queue 0 le_rfl (by omega)]
      simpa using hix
    refine ⟨ix, hpg, ?_⟩
    have hnotpos : ¬(s.current_index > 0) := by omega
    have hne0 : ¬((0 : Int) = (s.queue.length : Int)) := by omega
    simp only [prevExample, h0, if_neg hne0]
    norm_num
    rw [h0, hpg]

/-- Witness for `c7_retreat_behaviour`: queue `["a","b"]`, cursor at 1 —
retreat moves the cursor to 0 and returns row `"a"`'s path; then the terminal
and position-0 branches at their concrete states. -/
theorem c7_retreat_behaviour_witness :
    (0 : Int) < 1 ∧ (1 : Int) < ((["a", "b"] : List String).length : Int) ∧
    (∃ ix, pyGet (["a", "b"] : List String) (1 - 1) = some ix ∧
      prevExample ⟨["a", "b"], (fun k => k ++ ".png"), 2, 1, 0⟩ =
        (⟨["a", "b"], (fun k => k ++ ".png"), 2, 0, 1⟩,
         .shown 1 0 (ix ++ ".png")
           (renderSignalsComplete ⟨["a", "b"], (fun k => k ++ ".png"), 2, 0, 1⟩))) := by
  refine ⟨by norm_num, by norm_num, ?_⟩
  have h := (c7_retreat_behaviour
    ⟨["a", "b"], (fun k => k ++ ".png"), 2, 1, 0⟩).2.1 (by norm_num) (by norm_num)
  simpa using h

/-- **C10** (confirmed). Implicit behaviour: with a non-empty queue, calling
`retreat()` in the NOT_STARTED state (`current_index = -1`, as set by
`__init__` lines 315-317) does not fail: the cursor pair is unchanged and the
focal row shown/returned is the **last** element of the queue, reached through
Python negative list indexing `self._queue[-1]`. -/
theorem c10_retreat_not_started_shows_last (queue : List String)
    (paths : String → String) (nRows : Nat) (hq : queue ≠ []) :
    (prevExample (freshState queue paths nRows)).1 = freshState queue paths nRows ∧
    (prevExample (freshState queue paths nRows)).2 =
      .shown 0 (-1) (paths (queue.getLast hq))
        (renderSignalsComplete (freshState queue paths nRows)) := by
  have hlen : 0 < queue.length := List.length_pos.mpr hq
  have hne : ((-1 : Int) = (queue.length : Int)) = False := by
    simp only [eq_iff_iff, iff_false]; omega
  have hpg : pyGet queue (-1) = some (queue.getLast hq) := pyGet_neg_one queue hq
  constructor <;>
    simp [prevExample, freshState, hne, hpg]

/-- Witness for `c10_retreat_not_started_shows_last` at the concrete queue
`["a","b","c"]`. -/
theorem c10_retreat_not_started_shows_last_witness :
    (prevExample (freshState ["a", "b", "c"] (fun k => k ++ ".png") 3)).1 =
      freshState ["a", "b", "c"] (fun k => k ++ ".png") 3 ∧
    (prevExample (freshState ["a", "b", "c"] (fun k => k ++ ".png") 3)).2 =
      .shown 0 (-1)
        ((["a", "b", "c"] : List String).getLast (by simp) ++ ".png")
        (renderSignalsComplete (freshState ["a", "b", "c"] (fun k => k ++ ".png") 3)) :=
  c10_retreat_not_started_shows_last ["a", "b", "c"] (fun k => k ++ ".png") 3 (by simp)

/-! ## Label cells

A label cell of the patch DataFrame can be the Python object `None` (the
value `__init__` writes into a freshly created label column, line 185), the
float `NaN` (what `read_csv` yields for an empty CSV cell and what a left
join yields for an unmatched row), or a string.  The distinction matters:

* `pandas.isna` treats both `None` and `NaN` as missing;
* Python truthiness (`True if x else False`, line 248-250) differs:
  `bool(None) = False` but `bool(float("nan")) = True`, and `bool("") = False`
  while any non-empty string is truthy;
* the eligibility test (line 451) uses `row.label is not None`, which is
  `True` for `NaN` and for every string. -/

inductive LCell where
  | pynone
  | nan
  | str (s : String)
  deriving DecidableEq, Repr

/-- `pandas.isna` on a label cell. -/
def LCell.isna : LCell → Bool
  | .pynone => true
  | .nan => true
  | .str _ => false

/-- Python truthiness of a label cell (`True if x else False`). -/
def LCell.truthy : LCell → Bool
  | .pynone => false
  | .nan => true
  | .str s => s ≠ ""

/-- The spec's notion "the label is non-empty" (a non-empty string), used to
compare the code's recomputed `changed` flag against the claim. -/
def labelNonEmpty : LCell → Bool
  | .str s => s ≠ ""
  | _ => false

/-! ## Queue eligibility (`get_queue`, annotator.py lines 430-472) -/

/-- One row of the patch table as seen by `check_eligibility`: its row key,
its label cell and its numeric feature columns (modelled as a total map from
column name to value; the constraints only ever consult configured columns).
Feature values are modelled as rationals; the spec scenario values 0.4, 0.5,
0.6 order identically as floats and as rationals. -/
structure QRow where
  key : String
  label : LCell
  feats : String → ℚ

/-- Embedding of the inner `check_eligibility` of `get_queue`:

```python
if row.label is not None:
    return False
test = [row[col] >= min_value for col, min_value in self._min_values.items()] \
     + [row[col] <= max_value for col, max_value in self._max_values.items()]
if not all(test):
    return False
return True
```

`row.label is not None` is `True` for `NaN` and for every string (empty or
not); only the Python object `None` passes. -/
def check_eligibility (minValues maxValues : List (String × ℚ)) (row : QRow) :
    Bool :=
  if row.label ≠ LCell.pynone then false
  else
    (minValues.all fun p => decide (p.2 ≤ row.feats p.1)) &&
    (maxValues.all fun p => decide (row.feats p.1 ≤ p.2))

/-- Embedding of `get_queue`: filter the table by `check_eligibility`, shuffle
the eligible rows (`.sample(frac=1)`, modelled by an arbitrary permutation
`shuffle`), and return the row keys. -/
def get_queue (shuffle : List QRow → List QRow)
    (minValues maxValues : List (String × ℚ)) (rows : List QRow) :
    List String :=
  ((shuffle (rows.filter (check_eligibility minValues maxValues))).map QRow.key)

/-- The claim's eligibility predicate, written from the spec's words: "a row
is eligible iff its label field is null/empty AND every configured
`(column, min_value)` constraint holds AND every `(column, max_value)`
constraint holds", where "null/empty" covers `None`, `NaN` and the empty
string. -/
def specEligible (minValues maxValues : List (String × ℚ)) (row : QRow) :
    Bool :=
  (row.label.isna || (row.label = LCell.str "")) &&
  (minValues.all fun p => decide (p.2 ≤ row.feats p.1)) &&
  (maxValues.all fun p => decide (row.feats p.1 ≤ p.2))

theorem check_eligibility_iff (minValues maxValues : List (String × ℚ))
    (row : QRow) :
    check_eligibility minValues maxValues row = true ↔
      row.label = LCell.pynone ∧
      (∀ p ∈ minValues, p.2 ≤ row.feats p.1) ∧
      (∀ p ∈ maxValues, row.feats p.1 ≤ p.2) := by
  unfold check_eligibility
  by_cases h : row.label = LCell.pynone
  · simp [h, List.all_eq_true]
  · simp [h]

/-- **C3** (counterexample). The claim says a row with a null/**empty** label
satisfying all constraints is placed in the queue.  A row whose label is the
empty string `""` satisfies the claim's eligibility predicate but is rejected
by the code (`"" is not None` is `True`), so with no constraints configured
it is excluded from the queue. -/
theorem c3_empty_string_label_counterexample :
    specEligible [] [] ⟨"k", LCell.str "", fun _ => 0⟩ = true ∧
    check_eligibility [] [] ⟨"k", LCell.str "", fun _ => 0⟩ = false ∧
    get_queue id [] [] [⟨"k", LCell.str "", fun _ => 0⟩] = [] := by
  refine ⟨rfl, rfl, rfl⟩

/-- **C3** (amended). A row is placed in the queue by `get_queue` iff its
label cell is exactly the Python object `None` (a `NaN` or string label —
even the empty string — excludes the row) and every configured min and max
constraint holds.  Stated for any shuffle that permutes its input, as
`.sample(frac=1)` does. -/
theorem c3_queue_membership (shuffle : List QRow → List QRow)
    (hshuffle : ∀ l, (shuffle l).Perm l)
    (minValues maxValues : List (String × ℚ)) (rows : List QRow) (k : String) :
    k ∈ get_queue shuffle minValues maxValues rows ↔
      ∃ r ∈ rows, r.key = k ∧ r.label = LCell.pynone ∧
        (∀ p ∈ minValues, p.2 ≤ r.feats p.1) ∧
        (∀ p ∈ maxValues, r.feats p.1 ≤ p.2) := by
  unfold get_queue
  rw [List.mem_map]
  constructor
  · rintro ⟨r, hr, rfl⟩
    have hr' : r ∈ rows.filter (check_eligibility minValues maxValues) :=
      (hshuffle _).mem_iff.mp hr
    rw [List.mem_filter] at hr'
    obtain ⟨hmem, helig⟩ := hr'
    obtain ⟨h1, h2, h3⟩ := (check_eligibility_iff _ _ _).mp helig
    exact ⟨r, hmem, rfl, h1, h2, h3⟩
  · rintro ⟨r, hmem, rfl, h1, h2, h3⟩
    refine ⟨r, ?_, rfl⟩
    apply (hshuffle _).mem_iff.mpr
    rw [List.mem_filter]
    exact ⟨hmem, (check_eligibility_iff _ _ _).mpr ⟨h1, h2, h3⟩⟩

/-- Witness for `c3_queue_membership`, realizing the claim's scenario
`min_values={"score": 0.5}`: the unlabeled row with score 0.6 is in the
queue, the unlabeled row with score 0.4 is not. -/
theorem c3_queue_membership_witness :
    "k06" ∈ get_queue id [("score", (1 : ℚ)/2)] []
      [⟨"k04", LCell.pynone, fun _ => (2 : ℚ)/5⟩,
       ⟨"k06", LCell.pynone, fun _ => (3 : ℚ)/5⟩] ∧
    "k04" ∉ get_queue id [("score", (1 : ℚ)/2)] []
      [⟨"k04", LCell.pynone, fun _ => (2 : ℚ)/5⟩,
       ⟨"k06", LCell.pynone, fun _ => (3 : ℚ)/5⟩] := by
  constructor
  · refine (c3_queue_membership id (fun l => List.Perm.refl l) _ _ _ _).mpr
      ⟨⟨"k06", LCell.pynone, fun _ => (3 : ℚ)/5⟩, by simp, rfl, rfl, ?_, by simp⟩
    intro p hp
    rw [List.mem_singleton] at hp
    subst hp
    norm_num
  · intro hmem
    obtain ⟨r, hr, hk, _, hmin, _⟩ :=
      (c3_queue_membership id (fun l => List.Perm.refl l) _ _ _ _).mp hmem
    have h05 := hmin ("score", (1 : ℚ)/2) (by simp)
    simp only [List.mem_cons, List.mem_singleton] at hr
    rcases hr with rfl | rfl | h
    · norm_num at h05
    · exact absurd hk (by simp)
    · simp at h

/-! ## Resume merge (`__init__`, annotator.py lines 217-258)

```python
patch_df = patch_df.join(existing_annotations, how="left", lsuffix="_x", rsuffix="_y")
patch_df[label_col] = patch_df["label_y"].fillna(patch_df[f"{label_col}_x"])
patch_df = patch_df.drop(columns=["label_x", "label_y"])
patch_df["changed"] = patch_df[label_col].apply(lambda x: True if x else False)
patch_df[patch_paths_col] = patch_df[f"{patch_paths_col}_x"]
patch_df = patch_df.drop(columns=["image_path_x", "image_path_y"])
```

The left join is keyed on the row index; a fresh row with no matching key in
the existing file receives `NaN` in the `_y` columns.  `fillna` with a Series
argument places the aligned fill value at every NA position of the receiver
(pandas `Block.fillna` via `np.putmask`), even when that value is itself NA;
non-NA receiver cells are kept.  The `changed` flag is then recomputed by
Python truthiness of the merged label. -/

/-- A row of the freshly normalized patch table (only the fields the merge
touches: the image path and the label cell). -/
structure FreshRow where
  path : String
  label : LCell
  deriving DecidableEq, Repr

/-- A row of the existing annotations save-file. -/
structure ExistingRow where
  path : String
  label : LCell
  deriving DecidableEq, Repr

/-- A row of the merged table. -/
structure MergedRow where
  path : String
  label : LCell
  changed : Bool
  deriving DecidableEq, Repr

/-- One cell of `self_series.fillna(other_series)`: NA receiver cells take the
aligned fill value (even an NA one — `np.putmask` does not test the fill
value), non-NA cells are kept. -/
def fillnaCell (self other : LCell) : LCell :=
  if self.isna then other else self

/-- The rows of the existing save-file matching row key `k` — what the left
join pairs a fresh row with key `k` against (a pandas join duplicates the
left row once per matching right row). -/
def joinMatches (existing : List (String × ExistingRow)) (k : String) :
    List ExistingRow :=
  (existing.filter fun p => p.1 = k).map Prod.snd

/-- Merging one fresh row against its (optional) matching existing row:
`label_y` is the existing label, or `NaN` if the join found no match; the
merged label is `label_y.fillna(label_x)`; the path collapses to the fresh
(`_x`) path; `changed` is recomputed by truthiness of the merged label. -/
def mergeRow (f : FreshRow) (e : Option ExistingRow) : MergedRow :=
  let label_y : LCell :=
    match e with
    | Option.none => LCell.nan
    | Option.some er => er.label
  let label := fillnaCell label_y f.label
  { path := f.path, label := label, changed := label.truthy }

/-- The full resume merge over the fresh table. -/
def mergeResume (fresh : List (String × FreshRow))
    (existing : List (String × ExistingRow)) : List (String × MergedRow) :=
  fresh.flatMap fun p =>
    match joinMatches existing p.1 with
    | [] => [(p.1, mergeRow p.2 Option.none)]
    | ms => ms.map fun e => (p.1, mergeRow p.2 (Option.some e))

/-- Python truthiness of a label cell, characterized: truthy exactly for
`NaN` and for non-empty strings. -/
theorem LCell.truthy_iff (c : LCell) :
    c.truthy = true ↔ (c = LCell.nan ∨ ∃ s, c = LCell.str s ∧ s ≠ "") := by
  cases c with
  | pynone => simp [LCell.truthy]
  | nan => simp [LCell.truthy]
  | str s => simp [LCell.truthy]

theorem joinMatches_eq_find (existing : List (String × ExistingRow))
    (k : String) (hex : (existing.map Prod.fst).Nodup) :
    joinMatches existing k =
      ((existing.find? fun p => p.1 = k).map Prod.snd).toList := by
  induction existing with
  | nil => rfl
  | cons hd tl ih =>
      rw [List.map_cons, List.nodup_cons] at hex
      obtain ⟨hhd, htl⟩ := hex
      by_cases hk : hd.1 = k
      · have hnone : tl.filter (fun p => decide (p.1 = k)) = [] := by
          rw [List.filter_eq_nil_iff]
          intro p hp hdec
          apply hhd
          rw [List.mem_map]
          exact ⟨p, hp, by subst hk; simpa using hdec⟩
        simp [joinMatches, List.filter_cons, hk, List.find?_cons, hnone]
      · simp only [joinMatches, List.filter_cons, List.find?_cons]
        have : (decide (hd.1 = k)) = false := by simpa using hk
        rw [this]
        simp only [cond_false]
        exact ih htl

/-- **C2** (counterexample). The claim says the merged `changed` flag is true
*exactly when* the merged label is non-empty.  Take a fresh table whose label
column came from a CSV with an empty label cell (`NaN`) and an existing save
that does not contain that row key: the merged label is `NaN` (null), yet
`changed` is recomputed as `True` because `bool(float("nan"))` is `True` in
Python. -/
theorem c2_changed_flag_counterexample :
    mergeResume [("k1", ⟨"a.png", LCell.nan⟩)]
        [("k2", ⟨"b.png", LCell.str "x"⟩)] =
      [("k1", ⟨"a.png", LCell.nan, true⟩)] ∧
    ¬((true : Bool) = true ↔ labelNonEmpty LCell.nan = true) := by
  refine ⟨rfl, ?_⟩
  intro h
  simpa [labelNonEmpty] using h.mp rfl

/-- **C2** (amended). In the resume merge, assuming the existing save-file's
row keys are unique (the data-model invariant for files the system writes):
the result has exactly the fresh table's row keys in order (every fresh row
appears exactly once, matched or not); each fresh row is merged against the
unique matching existing row, if any; the merged label is the existing
save-file's label when that is non-NA, otherwise the fresh table's label; and
`changed` is recomputed by Python truthiness of the merged label — true
exactly when that label is a non-empty string **or `NaN`** (a row left
unlabeled through the merge as `NaN` is marked changed), false for `None` or
the empty string. -/
theorem c2_resume_merge (fresh : List (String × FreshRow))
    (existing : List (String × ExistingRow))
    (hex : (existing.map Prod.fst).Nodup) :
    mergeResume fresh existing =
      fresh.map (fun p => (p.1, mergeRow p.2
        ((existing.find? fun q => q.1 = p.1).map Prod.snd))) ∧
    (∀ f er, er.label.isna = false → (mergeRow f (Option.some er)).label = er.label) ∧
    (∀ f er, er.label.isna = true → (mergeRow f (Option.some er)).label = f.label) ∧
    (∀ f, (mergeRow f Option.none).label = f.label) ∧
    (∀ f e, (mergeRow f e).changed = true ↔
      ((mergeRow f e).label = LCell.nan ∨
       ∃ s, (mergeRow f e).label = LCell.str s ∧ s ≠ "")) := by
  refine ⟨?_, ?_, ?_, ?_, ?_⟩
  · unfold mergeResume
    induction fresh with
    | nil => rfl
    | cons hd tl ih =>
        rw [List.flatMap_cons, List.map_cons, ih]
        rw [joinMatches_eq_find _ _ hex]
        cases existing.find? fun q => q.1 = hd.1 with
        | none => rfl
        | some e => rfl
  · intro f er hna
    simp only [mergeRow, fillnaCell, hna]
    rfl
  · intro f er hna
    simp only [mergeRow, fillnaCell, hna]
    rfl
  · intro f
    rfl
  · intro f e
    exact LCell.truthy_iff ((mergeRow f e).label)

/-- Witness for `c2_resume_merge`: one fresh row with a prior annotation
(existing label `"cat"` wins and marks the row changed) and one without
(fresh label `None` survives, `changed` false). -/
theorem c2_resume_merge_witness :
    mergeResume
        [("k1", ⟨"a.png", LCell.pynone⟩), ("k2", ⟨"b.png", LCell.pynone⟩)]
        [("k1", ⟨"a.png", LCell.str "cat"⟩)] =
      [("k1", ⟨"a.png", LCell.str "cat", true⟩),
       ("k2", ⟨"b.png", LCell.pynone, false⟩)] := by
  have h := (c2_resume_merge
    [("k1", ⟨"a.png", LCell.pynone⟩), ("k2", ⟨"b.png", LCell.pynone⟩)]
    [("k1", ⟨"a.png", LCell.str "cat"⟩)] (by simp)).1
  rw [h]
  rfl

/-! ## Legacy integer-label resolution (`__init__`, annotator.py lines 229-236)

```python
if existing_annotations[label_col].dtype == int:
    existing_annotations[label_col] = existing_annotations[label_col].apply(
        lambda x: labels[x]
    )
```

`labels[x]` is Python list indexing: nonnegative in-range indices return the
entry, indices in `[-len, 0)` resolve from the end, anything else raises
`IndexError`.  The pandas `apply` raises out of the whole statement at the
first failing cell. -/

/-- Resolution of a column of legacy integer label indices against the label
vocabulary; `.error` models the raised `IndexError` (cells are processed in
order and the first failing lookup raises out of the whole statement). -/
def resolveLegacyLabels (labels : List String) : List Int →
    Except String (List String)
  | [] => Except.ok []
  | i :: rest =>
    match pyGet labels i with
    | Option.some l =>
        match resolveLegacyLabels labels rest with
        | Except.ok ls => Except.ok (l :: ls)
        | Except.error e => Except.error e
    | Option.none => Except.error "IndexError"

/-- **C8** (counterexample). The claim says every index outside the
vocabulary's range raises an `IndexError`-class condition.  The index `-1` is
not the index of any entry of the two-element vocabulary `["a","b"]`, yet the
code resolves it without error — Python list indexing wraps negative
indices, so `labels[-1]` silently yields `"b"`. -/
theorem c8_negative_index_counterexample :
    resolveLegacyLabels ["a", "b"] [-1] = Except.ok ["b"] := by
  rfl

/-- **C8** (amended). When the existing save's label column holds integer
indices, each index is resolved against the configured vocabulary with
Python list-indexing semantics before merging: a nonnegative in-range index
`0 ≤ i < len` yields the `i`-th entry, and that resolved string label then
wins the merge (it is non-NA); an index with `i ≥ len` or `i < -len` raises
an `IndexError`-class condition (surfaced, not clamped); but an index
`-len ≤ i < 0` resolves from the end of the vocabulary without error. -/
theorem c8_legacy_index_resolution (labels : List String) (i : Int)
    (f : FreshRow) (p : String) :
    (0 ≤ i → i < (labels.length : Int) →
      ∃ l, labels.get? i.toNat = Option.some l ∧
        resolveLegacyLabels labels [i] = Except.ok [l] ∧
        (mergeRow f (Option.some ⟨p, LCell.str l⟩)).label = LCell.str l) ∧
    ((labels.length : Int) ≤ i ∨ i < -(labels.length : Int) →
      resolveLegacyLabels labels [i] = Except.error "IndexError") ∧
    (-(labels.length : Int) ≤ i → i < 0 →
      ∃ l, labels.get? ((labels.length : Int) + i).toNat = Option.some l ∧
        resolveLegacyLabels labels [i] = Except.ok [l]) := by
  refine ⟨?_, ?_, ?_⟩
  · intro h0 hlt
    have hm : i.toNat < labels.length := by omega
    obtain ⟨l, hl⟩ := get?_exists_of_lt labels i.toNat hm
    refine ⟨l, hl, ?_, ?_⟩
    · have hpg : pyGet labels i = Option.some l := by
        rw [pyGet_nonneg labels i h0 hlt]; exact hl
      simp [resolveLegacyLabels, hpg]
    · rfl
  · intro hrange
    have hpg : pyGet labels i = Option.none := by
      rcases hrange with h | h
      · exact pyGet_out_of_range labels i h
      · have h0 : ¬(0 ≤ i ∧ i < labels.length) := by omega
        have h1 : ¬(-(labels.length : Int) ≤ i ∧ i < 0) := by omega
        simp [pyGet, h0, h1]
    simp [resolveLegacyLabels, hpg]
  · intro hge hlt
    have hm : ((labels.length : Int) + i).toNat < labels.length := by omega
    obtain ⟨l, hl⟩ := get?_exists_of_lt labels _ hm
    refine ⟨l, hl, ?_⟩
    have h0 : ¬(0 ≤ i ∧ i < labels.length) := by omega
    have h1 : -(labels.length : Int) ≤ i ∧ i < 0 := ⟨hge, hlt⟩
    have hpg : pyGet labels i = Option.some l := by
      simp only [pyGet, h0, if_false, h1, and_self, if_true]
      exact hl
    simp [resolveLegacyLabels, hpg]

/-- Witness for `c8_legacy_index_resolution`, realizing the claim's
scenario: vocabulary `["a","b"]`, saved index 1 resolves to `"b"` and that
label wins the merge; saved index 5 raises `IndexError`. -/
theorem c8_legacy_index_resolution_witness :
    (∃ l, (["a", "b"] : List String).get? (Int.toNat 1) = Option.some l ∧
      resolveLegacyLabels ["a", "b"] [1] = Except.ok [l] ∧
      (mergeRow ⟨"a.png", LCell.pynone⟩
        (Option.some ⟨"a.png", LCell.str l⟩)).label = LCell.str l) ∧
    resolveLegacyLabels ["a", "b"] [5] = Except.error "IndexError" := by
  constructor
  · exact (c8_legacy_index_resolution ["a", "b"] 1 ⟨"a.png", LCell.pynone⟩
      "a.png").1 (by norm_num) (by norm_num)
  · exact (c8_legacy_index_resolution ["a", "b"] 5 ⟨"a.png", LCell.pynone⟩
      "a.png").2.1 (by norm_num)

/-! ## Schema normalizer: `_eval_df` (annotator.py lines 375-382)

```python
for col in df.columns:
    try:
        df[col] = df[col].apply(literal_eval)
    except (ValueError, TypeError, SyntaxError):
        pass
```

Per column: `literal_eval` is applied to every cell; if any cell raises
(`literal_eval` raises `ValueError`/`TypeError` on every non-string cell and
`ValueError`/`SyntaxError` on strings that are not Python literals), the
whole assignment is skipped and the column is left as-is; if every cell
parses, the column is replaced by the parsed values.

`literal_eval` is modelled on the literal fragment a patch table can hold
after CSV round-trips: integers (decimal — leading zeros rejected as Python
does — and `0x`/`0o`/`0b` forms, optionally signed), floats (decimal-point
and exponent forms, optionally signed, carried as exact decimal rationals;
no claim here depends on IEEE rounding of the value), `True`/`False`/`None`,
escape-free single- or double-quoted strings (embedded newlines rejected, as
Python does), and flat tuples and lists of signed integers (`pixel_bounds`,
`shape`), including empty, single-element (`"(1,)"`), parenthesized-scalar
(`"(1)"` is the integer 1) and trailing-comma forms.

The model is **sound**: whenever `parseLiteral` succeeds, `ast.literal_eval`
succeeds with the same value.  Inputs outside the fragment (escaped or
prefixed string literals, underscored numbers, nested containers, dicts,
sets, complex numbers, comments, line continuations, …) map to `.none` even
though some of them are real literals; the idempotence theorem therefore
restricts itself to tables whose model-unparsed string cells provably cannot
be literals at all — see `mightBeLiteral`. -/

/-- A DataFrame cell as seen by `_eval_df`. -/
inductive PyVal where
  | pynone
  | nan
  | int (n : Int)
  | float (q : ℚ)
  | bool (b : Bool)
  | str (s : String)
  | tuple (ns : List Int)
  | list (ns : List Int)
  deriving DecidableEq, Repr

def digitsToNat (l : List Char) : Nat :=
  l.foldl (fun acc c => 10 * acc + (c.toNat - 48)) 0

/-- `literal_eval` strips leading spaces and tabs
(`node_or_string.lstrip(" \t")`). -/
def stripBlanks (l : List Char) : List Char :=
  l.dropWhile fun c => (c == ' ') || (c == '\t')

def decAllDigits (l : List Char) : Bool :=
  !l.isEmpty && l.all Char.isDigit

/-- Value of one digit character in base `r` (decimal digits, then hex
letters in either case), or `.none` when the character is no digit of that
base. -/
def digitValInRadix (r : Nat) (c : Char) : Option Nat :=
  let v : Option Nat :=
    if c.isDigit then Option.some (c.toNat - 48)
    else if 97 ≤ c.toNat ∧ c.toNat ≤ 102 then Option.some (c.toNat - 87)
    else if 65 ≤ c.toNat ∧ c.toNat ≤ 70 then Option.some (c.toNat - 55)
    else Option.none
  match v with
  | Option.some d => if d < r then Option.some d else Option.none
  | Option.none => Option.none

def parseRadix (r : Nat) (l : List Char) : Option Nat :=
  if l.isEmpty then Option.none
  else
    match l.mapM (digitValInRadix r) with
    | Option.some ds => Option.some (ds.foldl (fun acc d => r * acc + d) 0)
    | Option.none => Option.none

/-- Unsigned Python integer literal: `0x`/`0o`/`0b` forms, or decimal digits
with Python's leading-zero rule (a decimal literal starting with `0` must be
all zeros — `"01"` is a `SyntaxError`). -/
def parseUnsignedInt (l : List Char) : Option Nat :=
  match l with
  | [] => Option.none
  | c :: rest =>
      if c = '0' then
        match rest with
        | [] => Option.some 0
        | x :: rest2 =>
            if x = 'x' ∨ x = 'X' then parseRadix 16 rest2
            else if x = 'o' ∨ x = 'O' then parseRadix 8 rest2
            else if x = 'b' ∨ x = 'B' then parseRadix 2 rest2
            else if rest.all (fun d => d == '0') then Option.some 0
            else Option.none
      else if decAllDigits (c :: rest) then
        Option.some (digitsToNat (c :: rest))
      else Option.none

/-- Integer literal with an optional single leading sign (`literal_eval`
resolves exactly one `UAdd`/`USub` around a number). -/
def parseSignedInt (l : List Char) : Option Int :=
  match l with
  | '-' :: rest => (parseUnsignedInt rest).map fun n => -(n : Int)
  | '+' :: rest => (parseUnsignedInt rest).map fun n => (n : Int)
  | _ => (parseUnsignedInt l).map fun n => (n : Int)

/-- Split at the first character satisfying `p`: the part before it, and —
when found — the part after it. -/
def breakAtChar (p : Char → Bool) : List Char → List Char × Option (List Char)
  | [] => ([], Option.none)
  | c :: rest =>
      if p c then ([], Option.some rest)
      else
        let r := breakAtChar p rest
        (c :: r.1, r.2)

/-- The exponent part of a float literal: optional sign, then digits. -/
def parseExpPart : List Char → Option Int
  | '+' :: ds =>
      if decAllDigits ds then Option.some ((digitsToNat ds : Int)) else Option.none
  | '-' :: ds =>
      if decAllDigits ds then Option.some (-(digitsToNat ds : Int)) else Option.none
  | ds =>
      if decAllDigits ds then Option.some ((digitsToNat ds : Int)) else Option.none

/-- Unsigned Python float literal: `digits [. digits] [e[±]digits]` with a
dot or an exponent present and at least one mantissa digit (leading zeros
are legal in float literals).  The value is the exact decimal rational. -/
def parseUnsignedFloat (l : List Char) : Option ℚ :=
  let me := breakAtChar (fun c => (c == 'e') || (c == 'E')) l
  let expv : Option Int :=
    match me.2 with
    | Option.none => Option.some 0
    | Option.some e => parseExpPart e
  match expv with
  | Option.none => Option.none
  | Option.some ev =>
      let md := breakAtChar (fun c => c == '.') me.1
      match md.2 with
      | Option.none =>
          match me.2 with
          | Option.none => Option.none
          | Option.some _ =>
              if decAllDigits md.1 then
                Option.some ((digitsToNat md.1 : ℚ) * (10 : ℚ) ^ ev)
              else Option.none
      | Option.some fp =>
          if md.1.all Char.isDigit ∧ fp.all Char.isDigit ∧
              (md.1 ≠ [] ∨ fp ≠ []) then
            Option.some (((digitsToNat md.1 : ℚ) +
              (digitsToNat fp : ℚ) / (10 : ℚ) ^ fp.length) * (10 : ℚ) ^ ev)
          else Option.none

def parseSignedFloat (l : List Char) : Option ℚ :=
  match l with
  | '-' :: rest => (parseUnsignedFloat rest).map fun q => -q
  | '+' :: rest => (parseUnsignedFloat rest).map fun q => q
  | _ => (parseUnsignedFloat l).map fun q => q

/-- Blank characters Python tolerates around container items (spaces, tabs
and — inside brackets — newlines). -/
def isItemBlank (c : Char) : Bool :=
  (c == ' ') || (c == '\t') || (c == '\n') || (c == '\r')

def trimItem (l : List Char) : List Char :=
  ((l.dropWhile isItemBlank).reverse.dropWhile isItemBlank).reverse

/-- Tuple syntax after the opening `(`: empty tuple, a trailing-comma tuple
(`"(1,)"`), a parenthesized integer (`"(1)"` is the integer, not a tuple) or
a plain comma-separated tuple; members are signed integers (other member
types stay outside the modelled fragment). -/
def parseTuple (rest : List Char) : Option PyVal :=
  match rest.reverse with
  | [] => Option.none
  | last :: bodyRev =>
      if last = ')' then
        let body := bodyRev.reverse
        if (trimItem body).isEmpty then Option.some (PyVal.tuple [])
        else
          let pieces := body.splitOn ','
          match pieces.reverse with
          | [] => Option.none
          | lastP :: restR =>
              if (trimItem lastP).isEmpty then
                match (restR.reverse).mapM
                    (fun p => parseSignedInt (trimItem p)) with
                | Option.some ns =>
                    if ns.isEmpty then Option.none
                    else Option.some (PyVal.tuple ns)
                | Option.none => Option.none
              else
                match pieces with
                | [single] =>
                    match parseSignedInt (trimItem single) with
                    | Option.some n => Option.some (PyVal.int n)
                    | Option.none => Option.none
                | _ =>
                    match pieces.mapM (fun p => parseSignedInt (trimItem p)) with
                    | Option.some ns => Option.some (PyVal.tuple ns)
                    | Option.none => Option.none
      else Option.none

/-- List syntax after the opening `[`: empty, trailing-comma or plain
comma-separated list of signed integers. -/
def parseListLit (rest : List Char) : Option PyVal :=
  match rest.reverse with
  | [] => Option.none
  | last :: bodyRev =>
      if last = ']' then
        let body := bodyRev.reverse
        if (trimItem body).isEmpty then Option.some (PyVal.list [])
        else
          let pieces := body.splitOn ','
          match pieces.reverse with
          | [] => Option.none
          | lastP :: restR =>
              let items :=
                if (trimItem lastP).isEmpty then restR.reverse else pieces
              match items.mapM (fun p => parseSignedInt (trimItem p)) with
              | Option.some ns =>
                  if ns.isEmpty then Option.none
                  else Option.some (PyVal.list ns)
              | Option.none => Option.none
      else Option.none

/-- Model of `ast.literal_eval` on a string cell, on the fragment described
above; sound with respect to the real parser (never succeeds where
`literal_eval` raises, and agrees on the value where it succeeds). -/
def parseLiteral (s : String) : Option PyVal :=
  match stripBlanks s.toList with
  | [] => Option.none
  | c :: rest =>
    if c = '\'' ∨ c = '"' then
      match rest.reverse with
      | [] => Option.none
      | last :: bodyRev =>
          if last = c ∧ (bodyRev.all fun d =>
              (d != c) && (d != '\\') && (d != '\n') && (d != '\r')) then
            Option.some (PyVal.str (String.mk bodyRev.reverse))
          else Option.none
    else if c = '(' then parseTuple rest
    else if c = '[' then parseListLit rest
    else if (c :: rest) = ['T', 'r', 'u', 'e'] then Option.some (PyVal.bool true)
    else if (c :: rest) = ['F', 'a', 'l', 's', 'e'] then Option.some (PyVal.bool false)
    else if (c :: rest) = ['N', 'o', 'n', 'e'] then Option.some PyVal.pynone
    else
      match parseSignedInt (c :: rest) with
      | Option.some n => Option.some (PyVal.int n)
      | Option.none =>
          match parseSignedFloat (c :: rest) with
          | Option.some q => Option.some (PyVal.float q)
          | Option.none => Option.none

/-- Conservative test whether `ast.literal_eval` could possibly accept a
string.  After stripping leading blanks, every input the real parser accepts
starts with a digit, a sign, a dot (floats, `...`), a quote or a string
prefix letter (`r`/`R`/`b`/`B`/`u`/`U`/`f`/`F`), an opening `(`/`[`/`{`,
`T`rue / `F`alse / `N`one, a backslash (line continuation), a `#` comment,
or a residual newline or formfeed; everything else is a `SyntaxError` or a
non-literal expression node.  So `mightBeLiteral s = false` guarantees the
real `literal_eval` raises on `s` — a `true` answer promises nothing (an
over-approximation).  Every string the modelled `parseLiteral` accepts also
starts with one of these characters, so on strings with
`mightBeLiteral = false` the model and the real parser agree (both fail). -/
def mightBeLiteral (s : String) : Bool :=
  match stripBlanks s.toList with
  | [] => false
  | c :: _ =>
      c.isDigit ||
      (['+', '-', '.', '\'', '"', '(', '[', '{',
        'r', 'R', 'b', 'B', 'u', 'U', 'f', 'F', 'T', 'N',
        '\\', '#', '\n', '\r', '\x0c'].contains c)

/-- `literal_eval` on one cell: only string cells can parse; every non-string
cell raises (`TypeError`/`ValueError`), modelled as `.error`. -/
def evalCell : PyVal → Except Unit PyVal
  | .str s =>
      match parseLiteral s with
      | Option.some v => Except.ok v
      | Option.none => Except.error ()
  | _ => Except.error ()

/-- `df[col].apply(literal_eval)`: all cells in order; the first raising cell
aborts the whole column. -/
def evalCells : List PyVal → Except Unit (List PyVal)
  | [] => Except.ok []
  | v :: rest =>
    match evalCell v with
    | Except.ok w =>
        match evalCells rest with
        | Except.ok ws => Except.ok (w :: ws)
        | Except.error e => Except.error e
    | Except.error e => Except.error e

/-- One iteration of the `_eval_df` loop body on a column: replace the column
by the parsed cells, or keep it unchanged if any cell raised. -/
def evalColumn (col : List PyVal) : List PyVal :=
  match evalCells col with
  | Except.ok newCol => newCol
  | Except.error _ => col

/-- `_eval_df` on a table, represented column-wise (the loop is per-column
and columns are independent). -/
def eval_df (t : List (List PyVal)) : List (List PyVal) :=
  t.map evalColumn

theorem evalCell_ok_src (v w : PyVal) (h : evalCell v = Except.ok w) :
    ∃ s, v = PyVal.str s ∧ parseLiteral s = Option.some w := by
  cases v with
  | str s =>
      refine ⟨s, rfl, ?_⟩
      cases hp : parseLiteral s with
      | none =>
          have h' : Except.error () = Except.ok w := by
            rw [← h]; simp [evalCell, hp]
          cases h'
      | some u =>
          have h' : (Except.ok u : Except Unit PyVal) = Except.ok w := by
            rw [← h]; simp [evalCell, hp]
          cases h'
          rfl
  | pynone => cases h
  | nan => cases h
  | int n => cases h
  | float q => cases h
  | bool b => cases h
  | tuple ns => cases h
  | list ns => cases h

theorem evalCell_nonstr_error (v : PyVal) (h : ∀ s, v ≠ PyVal.str s) :
    evalCell v = Except.error () := by
  cases v with
  | str s => exact absurd rfl (h s)
  | pynone => rfl
  | nan => rfl
  | int n => rfl
  | float q => rfl
  | bool b => rfl
  | tuple ns => rfl
  | list ns => rfl

theorem evalCells_error_of_mem (l : List PyVal) (v : PyVal) (hv : v ∈ l)
    (herr : evalCell v = Except.error ()) :
    evalCells l = Except.error () := by
  induction l with
  | nil => cases hv
  | cons hd tl ih =>
      rcases List.mem_cons.mp hv with rfl | htl
      · simp [evalCells, herr]
      · unfold evalCells
        cases hhd : evalCell hd with
        | error e => cases e; rfl
        | ok w =>
            rw [ih htl]

theorem evalCells_ok_mem (l newl : List PyVal)
    (h : evalCells l = Except.ok newl) :
    ∀ w ∈ newl, ∃ v ∈ l, evalCell v = Except.ok w := by
  induction l generalizing newl with
  | nil =>
      cases h
      intro w hw
      cases hw
  | cons hd tl ih =>
      unfold evalCells at h
      cases hhd : evalCell hd with
      | error e => rw [hhd] at h; cases h
      | ok w0 =>
          rw [hhd] at h
          cases htl : evalCells tl with
          | error e => rw [htl] at h; cases h
          | ok ws =>
              rw [htl] at h
              cases h
              intro w hw
              rcases List.mem_cons.mp hw with rfl | hw'
              · exact ⟨hd, List.mem_cons_self _ _, hhd⟩
              · obtain ⟨v, hv, hev⟩ := ih ws htl w hw'
                exact ⟨v, List.mem_cons_of_mem _ hv, hev⟩

/-- **C9** (counterexample). `_eval_df` is not idempotent: a cell holding the
string `'123'` (a quoted numeric string, five characters) parses to the
string `123` on the first pass, and that in turn parses to the integer `123`
on a second pass. -/
theorem c9_not_idempotent_counterexample :
    eval_df [[PyVal.str "'123'"]] = [[PyVal.str "123"]] ∧
    eval_df (eval_df [[PyVal.str "'123'"]]) = [[PyVal.int 123]] ∧
    eval_df (eval_df [[PyVal.str "'123'"]]) ≠ eval_df [[PyVal.str "'123'"]] := by
  refine ⟨by decide, by decide, by decide⟩

/-- **C9** (amended). `_eval_df` is lossless on columns of already-native
(non-string) values — they are left exactly as-is, because `literal_eval`
raises on every non-string cell.  It is idempotent on every table that

* stays within the modelled literal fragment (`hdom`): every string cell
  either parses in the model or — `mightBeLiteral = false` — starts with a
  character that cannot begin any Python literal, so the model's parse
  failures are the real parser's failures too (tables holding
  literal-looking strings outside the fragment, e.g. escaped strings or
  underscored numbers, are excluded rather than wrongly covered); and

* contains no nested string literal (`hnest`): no cell parses to a string
  that itself parses, or could parse, as a literal.

Without the no-nesting proviso idempotence fails
(`c9_not_idempotent_counterexample`).  `hdom` restricts the statement to the
tables on which the embedding is a faithful image of the program; the
model-level proof itself does not consume it. -/
theorem c9_eval_df_lossless_and_idempotent (t : List (List PyVal))
    (hdom : ∀ col ∈ t, ∀ s : String, PyVal.str s ∈ col →
      parseLiteral s = Option.none → mightBeLiteral s = false)
    (hnest : ∀ col ∈ t, ∀ v ∈ col, ∀ s',
      evalCell v = Except.ok (PyVal.str s') →
      parseLiteral s' = Option.none ∧ mightBeLiteral s' = false) :
    (∀ col : List PyVal, (∀ v ∈ col, ∀ s, v ≠ PyVal.str s) →
      evalColumn col = col) ∧
    eval_df (eval_df t) = eval_df t := by
  constructor
  · intro col hcol
    cases col with
    | nil => rfl
    | cons hd tl =>
        unfold evalColumn
        rw [evalCells_error_of_mem (hd :: tl) hd (List.mem_cons_self _ _)
          (evalCell_nonstr_error hd (hcol hd (List.mem_cons_self _ _)))]
  · unfold eval_df
    rw [List.map_map]
    apply List.map_congr_left
    intro col hcol
    show evalColumn (evalColumn col) = evalColumn col
    cases hcells : evalCells col with
    | error e =>
        have hcc : evalColumn col = col := by unfold evalColumn; rw [hcells]
        rw [hcc]
        exact hcc
    | ok newCol =>
        have hcc : evalColumn col = newCol := by unfold evalColumn; rw [hcells]
        rw [hcc]
        cases newCol with
        | nil => rfl
        | cons w ws =>
            have hwerr : evalCell w = Except.error () := by
              obtain ⟨v, hv, hev⟩ :=
                evalCells_ok_mem col (w :: ws) hcells w (List.mem_cons_self _ _)
              cases w with
              | str s' =>
                  have hs' := (hnest col hcol v hv s' hev).1
                  simp [evalCell, hs']
              | pynone => rfl
              | nan => rfl
              | int n => rfl
              | float q => rfl
              | bool b => rfl
              | tuple ns => rfl
              | list ns => rfl
            unfold evalColumn
            rw [evalCells_error_of_mem (w :: ws) w (List.mem_cons_self _ _) hwerr]

/-- Witness for `c9_eval_df_lossless_and_idempotent` on a table with a
native column and a singly-quoted string column. -/
theorem c9_eval_df_lossless_and_idempotent_witness :
    evalColumn [PyVal.int 1, PyVal.nan] = [PyVal.int 1, PyVal.nan] ∧
    eval_df (eval_df [[PyVal.str "'abc'"], [PyVal.int 1, PyVal.nan]]) =
      eval_df [[PyVal.str "'abc'"], [PyVal.int 1, PyVal.nan]] := by
  have hdom : ∀ col ∈ [[PyVal.str "'abc'"], [PyVal.int 1, PyVal.nan]],
      ∀ s : String, PyVal.str s ∈ col →
      parseLiteral s = Option.none → mightBeLiteral s = false := by
    intro col hcol s hs hnone
    simp only [List.mem_cons, List.not_mem_nil, or_false] at hcol
    rcases hcol with rfl | rfl
    · simp only [List.mem_cons, List.not_mem_nil, or_false,
        PyVal.str.injEq] at hs
      subst hs
      exact absurd hnone (by decide)
    · simp only [List.mem_cons, List.not_mem_nil, or_false] at hs
      rcases hs with hs | hs <;> cases hs
  have hnest : ∀ col ∈ [[PyVal.str "'abc'"], [PyVal.int 1, PyVal.nan]],
      ∀ v ∈ col, ∀ s',
      evalCell v = Except.ok (PyVal.str s') →
      parseLiteral s' = Option.none ∧ mightBeLiteral s' = false := by
    intro col hcol v hv s' hev
    simp only [List.mem_cons, List.not_mem_nil, or_false] at hcol
    rcases hcol with rfl | rfl
    · simp only [List.mem_cons, List.not_mem_nil, or_false] at hv
      subst hv
      have habc : evalCell (PyVal.str "'abc'") = Except.ok (PyVal.str "abc") := by
        rfl
      rw [habc] at hev
      cases hev
      exact ⟨by decide, by decide⟩
    · simp only [List.mem_cons, List.not_mem_nil, or_false] at hv
      rcases hv with rfl | rfl
      · cases hev
      · cases hev
  have h := c9_eval_df_lossless_and_idempotent
    [[PyVal.str "'abc'"], [PyVal.int 1, PyVal.nan]] hdom hnest
  refine ⟨h.1 [PyVal.int 1, PyVal.nan] ?_, h.2⟩
  intro v hv s
  simp only [List.mem_cons, List.not_mem_nil, or_false] at hv
  rcases hv with rfl | rfl <;> simp

/-! ## Context compositor (`get_context`, annotator.py lines 474-594)

For each grid slot the code queries the rows of the focal patch's parent for
an exact match of the expected neighbor origin, then builds the slot content:

```python
items = [parent_frame.query(query) for query in queries]
ids = [x.index[0] if len(x.index) == 1 else None for x in items]
ids = [x != ix for x in ids]
image_paths = [x.at[x.index[0], "image_path"] if len(x.index) == 1 else None for x in items]
...
get_path(x[0], dim=x[1]) if x[0] else get_empty_square((width, height))
```

and `get_path` dims a tile unless dimming is suppressed:

```python
def get_path(image_path, dim=True):
    im = Image.open(image_path)
    if self._annotate_context:
        dim = False
    if dim in [True, "True"]:
        im_array = np.array(im)
        im_array = 256 - (256 - im_array) * 0.4  # lighten image
        im = Image.fromarray(im_array.astype(np.uint8))
    return im
```

(`zip`ped pairs pass through `numpy.array_split`, which may stringify the
boolean flags to `"True"`/`"False"`; the test `dim in [True, "True"]` makes
the dim decision agree with the original boolean, so the embedding keeps
plain booleans.) -/

/-- A row of the parent's patch table, as consulted by the neighbor search:
row key, parent id, the materialized bound columns the query matches on, and
the image path. -/
structure PatchRow where
  key : String
  parent_id : String
  min_x : Int
  min_y : Int
  image_path : String
  deriving DecidableEq, Repr

/-- One pixel of the dimming transform
`256 - (256 - im_array) * 0.4` followed by `astype(np.uint8)`, computed in
exact integer arithmetic.  For a `uint8` pixel `old ∈ [0, 255]`, write
`n = 256 - old ∈ [1, 256]`.  The IEEE double nearest 0.4 is
`2/5 + 1/(5·2^53)`, so the float product `n * 0.4` is exactly `2k` when
`n = 5k` (the excess `k/2^53` is below half an ulp of `2k`), and otherwise
lies within `10^-13` of `2n/5`, whose distance to the nearest integer is at
least `1/5`; truncating `256 - fl(n*0.4)` toward zero therefore yields
exactly `256 - ⌈2n/5⌉`, i.e. `256 - (2n+4)/5` in integer division. -/
def dimPixel (old : Nat) : Nat :=
  256 - (2 * (256 - old) + 4) / 5

/-- The transform the claim states: `new = 256 − (256 − old)·0.6`, under the
same uint8 truncation (exactly `256 - ⌈3n/5⌉`). -/
def claimDimPixel (old : Nat) : Nat :=
  256 - (3 * (256 - old) + 4) / 5

/-- Sanity link between the integer form and the real-valued formula of the
code: `dimPixel old` is the floor (= uint8 truncation, the value being
positive) of `256 - (256 - old) * (2/5)`. -/
theorem dimPixel_eq_floor (old : Nat) (h : old ≤ 255) :
    (dimPixel old : ℤ) = ⌊(256 : ℚ) - ((256 : ℚ) - (old : ℚ)) * (2 / 5)⌋ := by
  have hq : (256 : ℚ) - ((256 : ℚ) - (old : ℚ)) * (2 / 5)
      = ((768 + 2 * old : ℤ) : ℚ) / ((5 : ℕ) : ℚ) := by
    push_cast
    ring
  rw [hq, Rat.floor_intCast_div_natCast]
  unfold dimPixel
  omega

/-- Embedding of the inner `get_path`: suppress dimming in context-level
annotation mode, then dim iff the flag survives. The image is a list of
`uint8` pixel values. -/
def get_path (annotateContext : Bool) (dim : Bool) (img : List Nat) :
    List Nat :=
  let dim := if annotateContext then false else dim
  if dim then img.map dimPixel else img

/-- The rows of the parent frame whose bound columns match the expected
neighbor origin — `parent_frame.query(f"min_x == {x} & min_y == {y}")`,
preserving table order. -/
def slotMatches (parentRows : List PatchRow) (ox oy : Int) : List PatchRow :=
  parentRows.filter fun r => (r.min_x == ox) && (r.min_y == oy)

/-- Slot resolution: a slot yields `(image_path, dim_flag)` only when the
query matched **exactly one** row (`len(x.index) == 1`); the dim flag is
`row_key != focal_key`; zero or multiple matches yield `none` (a blank
tile). -/
def slotLookup (parentRows : List PatchRow) (focalKey : String)
    (ox oy : Int) : Option (String × Bool) :=
  match slotMatches parentRows ox oy with
  | [r] => Option.some (r.image_path, decide (r.key ≠ focalKey))
  | _ => Option.none

/-- Content of one grid slot: the (possibly dimmed) matched image, or the
blank placeholder (`get_empty_square`, of the focal tile's dimensions). -/
def slotImage (annotateContext : Bool) (imgOf : String → List Nat)
    (blank : List Nat) (parentRows : List PatchRow) (focalKey : String)
    (ox oy : Int) : List Nat :=
  match slotLookup parentRows focalKey ox oy with
  | Option.some (p, d) => get_path annotateContext d (imgOf p)
  | Option.none => blank

/-- **C5** (counterexample). The claim's per-pixel transform is
`new = 256 − (256 − old)·0.6`; the code computes
`256 - (256 - im_array) * 0.4`.  At pixel value 0 on a matched non-focal
neighbor tile the code produces 153, while the claimed formula gives 102. -/
theorem c5_dim_factor_counterexample :
    slotImage false (fun _ => [0]) [7]
        [⟨"n1", "p1", 0, 0, "n1.png"⟩] "focal" 0 0 = [153] ∧
    claimDimPixel 0 = 102 ∧ dimPixel 0 = 153 ∧
    dimPixel 0 ≠ claimDimPixel 0 := by
  refine ⟨rfl, rfl, rfl, by decide⟩

/-- **C5** (amended). In context composition: every matched non-focal
neighbor tile is dimmed per-pixel by `new = 256 − (256 − old)·0.4` (uint8
truncated); a matched focal tile is never dimmed; and in context-level
annotation mode dimming is suppressed for every tile regardless of
focal/non-focal status. -/
theorem c5_dimming_behaviour (annotateContext : Bool)
    (imgOf : String → List Nat) (blank : List Nat)
    (parentRows : List PatchRow) (focalKey : String) (ox oy : Int) :
    (∀ r, slotMatches parentRows ox oy = [r] → r.key ≠ focalKey →
      slotImage false imgOf blank parentRows focalKey ox oy =
        (imgOf r.image_path).map dimPixel) ∧
    (∀ r, slotMatches parentRows ox oy = [r] → r.key = focalKey →
      slotImage annotateContext imgOf blank parentRows focalKey ox oy =
        imgOf r.image_path) ∧
    (∀ r, slotMatches parentRows ox oy = [r] →
      slotImage true imgOf blank parentRows focalKey ox oy =
        imgOf r.image_path) := by
  refine ⟨?_, ?_, ?_⟩
  · intro r hm hne
    simp [slotImage, slotLookup, hm, get_path, hne]
  · intro r hm heq
    simp [slotImage, slotLookup, hm, get_path, heq]
  · intro r hm
    simp [slotImage, slotLookup, hm, get_path]

/-- Witness for `c5_dimming_behaviour`: a non-focal match is dimmed, the
focal match is not, and context-level mode shows the non-focal match at full
brightness. -/
theorem c5_dimming_behaviour_witness :
    slotImage false (fun _ => [0, 255]) [7]
        [⟨"n1", "p1", 0, 0, "n1.png"⟩] "focal" 0 0 = [153, 255] ∧
    slotImage false (fun _ => [0, 255]) [7]
        [⟨"focal", "p1", 0, 0, "f.png"⟩] "focal" 0 0 = [0, 255] ∧
    slotImage true (fun _ => [0, 255]) [7]
        [⟨"n1", "p1", 0, 0, "n1.png"⟩] "focal" 0 0 = [0, 255] := by
  refine ⟨?_, ?_, ?_⟩
  · have h := (c5_dimming_behaviour false (fun _ => [0, 255]) [7]
      [⟨"n1", "p1", 0, 0, "n1.png"⟩] "focal" 0 0).1
      ⟨"n1", "p1", 0, 0, "n1.png"⟩ (by decide) (by decide)
    rw [h]
    rfl
  · exact (c5_dimming_behaviour false (fun _ => [0, 255]) [7]
      [⟨"focal", "p1", 0, 0, "f.png"⟩] "focal" 0 0).2.1
      ⟨"focal", "p1", 0, 0, "f.png"⟩ (by decide) rfl
  · exact (c5_dimming_behaviour true (fun _ => [0, 255]) [7]
      [⟨"n1", "p1", 0, 0, "n1.png"⟩] "focal" 0 0).2.2
      ⟨"n1", "p1", 0, 0, "n1.png"⟩ (by decide)

/-- **C6** (counterexample). The claim says that when more than one row
matches a neighbor origin, the **first** matching row's image is used.  With
two rows of the same parent sharing the origin `(0,0)`, the code's
`len(x.index) == 1` test fails and the slot is rendered as the blank
placeholder — neither the first match's image nor its dimmed version. -/
theorem c6_ambiguous_match_counterexample :
    slotMatches [⟨"a", "p", 0, 0, "a.png"⟩, ⟨"b", "p", 0, 0, "b.png"⟩] 0 0 =
      [⟨"a", "p", 0, 0, "a.png"⟩, ⟨"b", "p", 0, 0, "b.png"⟩] ∧
    slotLookup [⟨"a", "p", 0, 0, "a.png"⟩, ⟨"b", "p", 0, 0, "b.png"⟩]
      "focal" 0 0 = Option.none ∧
    slotImage false (fun p => if p = "a.png" then [1] else [2]) [9]
      [⟨"a", "p", 0, 0, "a.png"⟩, ⟨"b", "p", 0, 0, "b.png"⟩] "focal" 0 0 = [9] ∧
    ([9] : List Nat) ≠ [1] ∧
    ([9] : List Nat) ≠ [1].map dimPixel := by
  refine ⟨rfl, rfl, rfl, by decide, by decide⟩

/-- **C6** (amended). Slot resolution during context composition: a slot
whose expected neighbor origin is matched by exactly one row uses that row's
image (dimmed iff non-focal); a slot matched by zero **or by more than one**
row (ambiguous geometry) yields the blank placeholder.  Ambiguity is
tolerated structurally — `slotLookup`/`slotImage` are total functions and no
error is raised. -/
theorem c6_slot_resolution (parentRows : List PatchRow) (focalKey : String)
    (ox oy : Int) (annotateContext : Bool) (imgOf : String → List Nat)
    (blank : List Nat) :
    (∀ r, slotMatches parentRows ox oy = [r] →
      slotLookup parentRows focalKey ox oy =
        Option.some (r.image_path, decide (r.key ≠ focalKey))) ∧
    ((slotMatches parentRows ox oy).length ≠ 1 →
      slotImage annotateContext imgOf blank parentRows focalKey ox oy =
        blank) := by
  constructor
  · intro r hm
    simp [slotLookup, hm]
  · intro hlen
    unfold slotImage slotLookup
    cases hm : slotMatches parentRows ox oy with
    | nil => rfl
    | cons r rest =>
        cases rest with
        | nil => rw [hm] at hlen; simp at hlen
        | cons r2 rest2 => rfl

/-- Witness for `c6_slot_resolution`: a uniquely matched slot resolves to
that row's image path; a doubly matched slot renders blank. -/
theorem c6_slot_resolution_witness :
    slotLookup [⟨"a", "p", 0, 0, "a.png"⟩] "focal" 0 0 =
      Option.some ("a.png", true) ∧
    slotImage false (fun _ => [1]) [9]
      [⟨"a", "p", 0, 0, "a.png"⟩, ⟨"b", "p", 0, 0, "b.png"⟩] "focal" 0 0 =
      [9] := by
  constructor
  · have h := (c6_slot_resolution [⟨"a", "p", 0, 0, "a.png"⟩] "focal" 0 0
      false (fun _ => [1]) [9]).1 ⟨"a", "p", 0, 0, "a.png"⟩ (by decide)
    simpa using h
  · exact (c6_slot_resolution
      [⟨"a", "p", 0, 0, "a.png"⟩, ⟨"b", "p", 0, 0, "b.png"⟩] "focal" 0 0
      false (fun _ => [1]) [9]).2 (by decide)

/-! ## Session identity (`__init__`, annotator.py lines 194-208)

```python
image_list = json.dumps(sorted(patch_df[patch_paths_col].to_list()), sort_keys=True)
id = hashlib.md5(image_list.encode("utf-8")).hexdigest()
annotations_file = task_name.replace(" ", "_") + f"_#{username}#-{id}.csv"
```

The JSON serialization is `json.dumps` with default options (`ensure_ascii`,
separator `", "`; `sort_keys` is irrelevant for a list), modelled faithfully
below, including the escape table (`\"`, `\\`, `\b`, `\t`, `\n`, `\f`, `\r`,
`\uXXXX` with lowercase hex for other non-printables and non-ASCII, and
surrogate pairs for astral code points).  `sorted` on strings is
lexicographic comparison of code points, which coincides with `String`'s
linear order.  The MD5 digest is an external primitive; it is modelled as a
function parameter `md5hex`, and the distinctness statement assumes it
injective (collision-freeness on the inputs at hand), which is exactly the
strength the claim needs: the encoder itself is proved injective below, so
hashing is the only lossy step. -/

/-- Lowercase hexadecimal digit, as Python's `json` emits in `\uXXXX`. -/
def hexDigitChar (n : Nat) : Char :=
  if n < 10 then Char.ofNat (48 + n) else Char.ofNat (87 + n)

/-- A `\uXXXX` escape for a 16-bit value. -/
def uEscape (n : Nat) : List Char :=
  ['\\', 'u', hexDigitChar (n / 4096 % 16), hexDigitChar (n / 256 % 16),
   hexDigitChar (n / 16 % 16), hexDigitChar (n % 16)]

/-- `json.dumps` escaping of one character (default `ensure_ascii=True`):
quote and backslash are backslash-escaped, the five short escapes apply,
printable ASCII (0x20–0x7E) is literal, everything else becomes `\uXXXX`
(with a surrogate pair above 0xFFFF). -/
def jsonEscapeChar (c : Char) : List Char :=
  if c = '"' then ['\\', '"']
  else if c = '\\' then ['\\', '\\']
  else if c.toNat = 8 then ['\\', 'b']
  else if c.toNat = 9 then ['\\', 't']
  else if c.toNat = 10 then ['\\', 'n']
  else if c.toNat = 12 then ['\\', 'f']
  else if c.toNat = 13 then ['\\', 'r']
  else if 32 ≤ c.toNat ∧ c.toNat ≤ 126 then [c]
  else if c.toNat < 65536 then uEscape c.toNat
  else uEscape (55296 + (c.toNat - 65536) / 1024) ++
       uEscape (56320 + (c.toNat - 65536) % 1024)

/-- A JSON string literal. -/
def jsonQuote (s : List Char) : List Char :=
  '"' :: (s.flatMap jsonEscapeChar ++ ['"'])

/-- `json.dumps` of a list of strings with the default `", "` separator. -/
def jsonDumpsList : List String → List Char
  | [] => ['[', ']']
  | x :: xs =>
      '[' :: (jsonQuote x.toList ++
        (xs.flatMap (fun s => ',' :: ' ' :: jsonQuote s.toList) ++ [']']))

/-! ### A decoder, used only to prove the encoder injective -/

def decHex (c : Char) : Option Nat :=
  if 48 ≤ c.toNat ∧ c.toNat ≤ 57 then Option.some (c.toNat - 48)
  else if 97 ≤ c.toNat ∧ c.toNat ≤ 102 then Option.some (c.toNat - 87)
  else Option.none

def decHex4 (a b c d : Char) : Option Nat :=
  match decHex a, decHex b, decHex c, decHex d with
  | Option.some x, Option.some y, Option.some z, Option.some w =>
      Option.some (4096 * x + 256 * y + 16 * z + w)
  | _, _, _, _ => Option.none

/-- Decoding of the low-surrogate half `\uDCxx` of a surrogate-pair escape,
given the already-decoded high surrogate value `n`. -/
def decodeSurrogatePair (n : Nat) : List Char → Option (Char × List Char)
  | x1 :: x2 :: a2 :: b2 :: c2 :: d2 :: rest4 =>
    if x1 = '\\' ∧ x2 = 'u' then
      match decHex4 a2 b2 c2 d2 with
      | Option.some m =>
          if 56320 ≤ m ∧ m < 57344 then
            Option.some (Char.ofNat (65536 + (n - 55296) * 1024 + (m - 56320)),
              rest4)
          else Option.none
      | Option.none => Option.none
    else Option.none
  | _ => Option.none

/-- Decoding of the payload of a `\u` escape: four hex digits, possibly
followed by the low half of a surrogate pair. -/
def decodeU : List Char → Option (Char × List Char)
  | a :: b :: c3 :: d :: rest3 =>
    match decHex4 a b c3 d with
    | Option.some n =>
      if n < 55296 ∨ 57344 ≤ n then Option.some (Char.ofNat n, rest3)
      else if n < 56320 then decodeSurrogatePair n rest3
      else Option.none
    | Option.none => Option.none
  | _ => Option.none

/-- Decoder for a single escaped character at the head of a JSON string
body.  Returns `none` on the closing quote (end of the string literal) or on
malformed input; otherwise the decoded character and the remaining input.
Non-recursive: it is applied once per induction step when proving the
encoder injective. -/
def decodeOneEscape : List Char → Option (Char × List Char)
  | [] => Option.none
  | c :: rest =>
    if c = '"' then Option.none
    else if c = '\\' then
      match rest with
      | [] => Option.none
      | e :: rest2 =>
        if e = '"' then Option.some ('"', rest2)
        else if e = '\\' then Option.some ('\\', rest2)
        else if e = 'b' then Option.some (Char.ofNat 8, rest2)
        else if e = 't' then Option.some (Char.ofNat 9, rest2)
        else if e = 'n' then Option.some (Char.ofNat 10, rest2)
        else if e = 'f' then Option.some (Char.ofNat 12, rest2)
        else if e = 'r' then Option.some (Char.ofNat 13, rest2)
        else if e = 'u' then decodeU rest2
        else Option.none
    else Option.some (c, rest)

theorem decHex_hexDigitChar : ∀ k, k < 16 → decHex (hexDigitChar k) = Option.some k := by
  decide

theorem decHex4_digits (n : Nat) (hn : n < 65536) :
    decHex4 (hexDigitChar (n / 4096 % 16)) (hexDigitChar (n / 256 % 16))
      (hexDigitChar (n / 16 % 16)) (hexDigitChar (n % 16)) = Option.some n := by
  unfold decHex4
  rw [decHex_hexDigitChar _ (by omega), decHex_hexDigitChar _ (by omega),
      decHex_hexDigitChar _ (by omega), decHex_hexDigitChar _ (by omega)]
  simp only []
  congr 1
  omega

/-- Character validity: a `Char`'s code point is never a surrogate and is
below 0x110000. -/
theorem char_toNat_valid (c : Char) :
    c.toNat < 55296 ∨ (57343 < c.toNat ∧ c.toNat < 1114112) := c.valid

theorem decodeOneEscape_u (rest2 : List Char) :
    decodeOneEscape ('\\' :: 'u' :: rest2) = decodeU rest2 := by
  simp [decodeOneEscape]

theorem decodeU_digits (n : Nat) (hn : n < 65536) (t : List Char) :
    decodeU (hexDigitChar (n / 4096 % 16) :: hexDigitChar (n / 256 % 16) ::
      hexDigitChar (n / 16 % 16) :: hexDigitChar (n % 16) :: t) =
    (if n < 55296 ∨ 57344 ≤ n then Option.some (Char.ofNat n, t)
     else if n < 56320 then decodeSurrogatePair n t
     else Option.none) := by
  simp only [decodeU]
  rw [decHex4_digits n hn]

/-- Key unambiguity step: decoding the escape of any character in front of
any tail recovers exactly that character and that tail. -/
theorem decodeOneEscape_jsonEscapeChar (c : Char) (t : List Char) :
    decodeOneEscape (jsonEscapeChar c ++ t) = Option.some (c, t) := by
  have hvalid := char_toNat_valid c
  unfold jsonEscapeChar
  by_cases h1 : c = '"'
  · subst h1; simp [decodeOneEscape]
  rw [if_neg h1]
  by_cases h2 : c = '\\'
  · subst h2; simp [decodeOneEscape]
  rw [if_neg h2]
  by_cases h3 : c.toNat = 8
  · rw [if_pos h3]
    have hc : Char.ofNat 8 = c := by rw [← h3, Char.ofNat_toNat]
    simp [decodeOneEscape]
    exact hc
  rw [if_neg h3]
  by_cases h4 : c.toNat = 9
  · rw [if_pos h4]
    have hc : Char.ofNat 9 = c := by rw [← h4, Char.ofNat_toNat]
    simp [decodeOneEscape]
    exact hc
  rw [if_neg h4]
  by_cases h5 : c.toNat = 10
  · rw [if_pos h5]
    have hc : Char.ofNat 10 = c := by rw [← h5, Char.ofNat_toNat]
    simp [decodeOneEscape]
    exact hc
  rw [if_neg h5]
  by_cases h6 : c.toNat = 12
  · rw [if_pos h6]
    have hc : Char.ofNat 12 = c := by rw [← h6, Char.ofNat_toNat]
    simp [decodeOneEscape]
    exact hc
  rw [if_neg h6]
  by_cases h7 : c.toNat = 13
  · rw [if_pos h7]
    have hc : Char.ofNat 13 = c := by rw [← h7, Char.ofNat_toNat]
    simp [decodeOneEscape]
    exact hc
  rw [if_neg h7]
  by_cases h8 : 32 ≤ c.toNat ∧ c.toNat ≤ 126
  · rw [if_pos h8]
    show decodeOneEscape (c :: t) = _
    simp only [decodeOneEscape]
    rw [if_neg h1, if_neg h2]
  rw [if_neg h8]
  by_cases h9 : c.toNat < 65536
  · rw [if_pos h9]
    have hcond : c.toNat < 55296 ∨ 57344 ≤ c.toNat := by omega
    unfold uEscape
    simp only [List.cons_append, List.nil_append]
    rw [decodeOneEscape_u, decodeU_digits c.toNat h9, if_pos hcond,
      Char.ofNat_toNat]
  · rw [if_neg h9]
    push_neg at h9
    have hlt : c.toNat < 1114112 := by omega
    have hhi1 : ¬(55296 + (c.toNat - 65536) / 1024 < 55296 ∨
        57344 ≤ 55296 + (c.toNat - 65536) / 1024) := by omega
    have hhi2 : 55296 + (c.toNat - 65536) / 1024 < 56320 := by omega
    have hlo : 56320 ≤ 56320 + (c.toNat - 65536) % 1024 ∧
        56320 + (c.toNat - 65536) % 1024 < 57344 := by omega
    unfold uEscape
    simp only [List.cons_append, List.nil_append]
    rw [decodeOneEscape_u, decodeU_digits _ (by omega), if_neg hhi1,
      if_pos hhi2]
    simp only [decodeSurrogatePair,
      decHex4_digits (56320 + (c.toNat - 65536) % 1024) (by omega)]
    rw [if_pos hlo]
    have harith : 65536 + (55296 + (c.toNat - 65536) / 1024 - 55296) * 1024 +
        (56320 + (c.toNat - 65536) % 1024 - 56320) = c.toNat := by omega
    rw [harith, Char.ofNat_toNat]
    simp

/-- The closing quote is never mistaken for an escape. -/
theorem decodeOneEscape_quote (t : List Char) :
    decodeOneEscape ('"' :: t) = Option.none := by
  simp [decodeOneEscape]

/-- Unambiguity of escaped string bodies terminated by a quote. -/
theorem escBody_unambig (s1 : List Char) : ∀ (s2 r1 r2 : List Char),
    s1.flatMap jsonEscapeChar ++ ('"' :: r1) =
      s2.flatMap jsonEscapeChar ++ ('"' :: r2) →
    s1 = s2 ∧ r1 = r2 := by
  induction s1 with
  | nil =>
      intro s2 r1 r2 h
      cases s2 with
      | nil =>
          simp only [List.flatMap_nil, List.nil_append, List.cons.injEq,
            true_and] at h
          exact ⟨rfl, h⟩
      | cons c2 cs2 =>
          exfalso
          have h1 := decodeOneEscape_quote r1
          have h2 := decodeOneEscape_jsonEscapeChar c2
            (cs2.flatMap jsonEscapeChar ++ ('"' :: r2))
          rw [List.flatMap_nil, List.nil_append] at h
          rw [List.flatMap_cons, List.append_assoc] at h
          rw [h] at h1
          rw [h1] at h2
          cases h2
  | cons c1 cs1 ih =>
      intro s2 r1 r2 h
      cases s2 with
      | nil =>
          exfalso
          have h1 := decodeOneEscape_quote r2
          have h2 := decodeOneEscape_jsonEscapeChar c1
            (cs1.flatMap jsonEscapeChar ++ ('"' :: r1))
          rw [List.flatMap_nil, List.nil_append] at h
          rw [List.flatMap_cons, List.append_assoc] at h
          rw [← h] at h1
          rw [h1] at h2
          cases h2
      | cons c2 cs2 =>
          rw [List.flatMap_cons, List.flatMap_cons, List.append_assoc,
            List.append_assoc] at h
          have h1 := decodeOneEscape_jsonEscapeChar c1
            (cs1.flatMap jsonEscapeChar ++ ('"' :: r1))
          have h2 := decodeOneEscape_jsonEscapeChar c2
            (cs2.flatMap jsonEscapeChar ++ ('"' :: r2))
          rw [h] at h1
          rw [h1] at h2
          injection h2 with h2'
          injection h2' with hc ht
          subst hc
          obtain ⟨hs, hr⟩ := ih cs2 r1 r2 ht
          exact ⟨by rw [hs], hr⟩

/-- Unambiguity of quoted strings: equal concatenations starting with JSON
string literals agree on the literal and on the tail. -/
theorem jsonQuote_unambig (a b u v : List Char)
    (h : jsonQuote a ++ u = jsonQuote b ++ v) : a = b ∧ u = v := by
  unfold jsonQuote at h
  simp only [List.cons_append, List.append_assoc, List.singleton_append,
    List.cons.injEq, true_and] at h
  exact escBody_unambig a b u v (by simpa using h)

theorem jsonTail_unambig (xs : List String) : ∀ ys : List String,
    xs.flatMap (fun s => ',' :: ' ' :: jsonQuote s.toList) ++ [']'] =
    ys.flatMap (fun s => ',' :: ' ' :: jsonQuote s.toList) ++ [']'] → xs = ys := by
  induction xs with
  | nil =>
      intro ys h
      cases ys with
      | nil => rfl
      | cons y ys' => simp at h
  | cons x xs' ih =>
      intro ys h
      cases ys with
      | nil => simp at h
      | cons y ys' =>
          simp only [List.flatMap_cons, List.cons_append, List.append_assoc,
            List.cons.injEq, true_and] at h
          obtain ⟨hq, ht⟩ := jsonQuote_unambig _ _ _ _ h
          have hx : x = y := by
            apply String.ext
            exact hq
          subst hx
          rw [ih ys' ht]

/-- The modelled `json.dumps` is injective on lists of strings. -/
theorem jsonDumpsList_inj (l1 l2 : List String)
    (h : jsonDumpsList l1 = jsonDumpsList l2) : l1 = l2 := by
  cases l1 with
  | nil =>
      cases l2 with
      | nil => rfl
      | cons y ys => simp [jsonDumpsList, jsonQuote] at h
  | cons x xs =>
      cases l2 with
      | nil => simp [jsonDumpsList, jsonQuote] at h
      | cons y ys =>
          simp only [jsonDumpsList, List.cons.injEq, true_and] at h
          rw [← List.append_assoc, ← List.append_assoc] at h
          have h' : jsonQuote x.toList ++
              (xs.flatMap (fun s => ',' :: ' ' :: jsonQuote s.toList) ++ [']']) =
              jsonQuote y.toList ++
              (ys.flatMap (fun s => ',' :: ' ' :: jsonQuote s.toList) ++ [']']) := by
            simpa [List.append_assoc] using h
          obtain ⟨hq, ht⟩ := jsonQuote_unambig _ _ _ _ h'
          have hx : x = y := String.ext hq
          subst hx
          rw [jsonTail_unambig xs ys ht]

/-- `json.dumps(sorted(paths))`: the serialized, sorted path list that is
hashed into the session identifier.  Python's `sorted` on strings compares
code points lexicographically, which is `String`'s order. -/
def imageListJson (paths : List String) : List Char :=
  jsonDumpsList (List.insertionSort (fun a b => a ≤ b) paths)

/-- The session save-file name (as its character sequence):
`task_name.replace(" ", "_") + f"_#{username}#-{id}.csv"` with
`id = md5hex(imageListJson paths)`.  The MD5 hex digest is the parameter
`md5hex`. -/
def annotations_file (md5hex : List Char → List Char) (paths : List String)
    (username task_name : String) : List Char :=
  (task_name.toList.map fun c => if c = ' ' then '_' else c) ++
    ('_' :: '#' :: username.toList ++
      ('#' :: '-' :: (md5hex (imageListJson paths) ++ ['.', 'c', 's', 'v'])))

theorem insertionSort_eq_of_perm (p1 p2 : List String) (h : p1.Perm p2) :
    List.insertionSort (fun a b => a ≤ b) p1 =
      List.insertionSort (fun a b => a ≤ b) p2 := by
  have hperm : (List.insertionSort (fun a b => a ≤ b) p1).Perm
      (List.insertionSort (fun a b => a ≤ b) p2) :=
    (List.perm_insertionSort _ p1).trans
      (h.trans (List.perm_insertionSort _ p2).symm)
  exact List.eq_of_perm_of_sorted hperm
    (List.sorted_insertionSort _ p1) (List.sorted_insertionSort _ p2)

theorem perm_of_insertionSort_eq (p1 p2 : List String)
    (h : List.insertionSort (fun a b => a ≤ b) p1 =
      List.insertionSort (fun a b => a ≤ b) p2) : p1.Perm p2 := by
  have h1 := (List.perm_insertionSort (fun a b => a ≤ b) p1).symm
  have h2 := List.perm_insertionSort (fun a b => a ≤ b) p2
  rw [h] at h1
  exact h1.trans h2

/-- **C4** (confirmed, with the MD5 digest abstracted as an injective
function).  The session save-file name is a pure function of the sorted list
of `image_path` values (JSON-serialized then hashed), the username and the
task name: identical path multisets with the same user and task give the
identical filename; the filename follows the pattern
`{task}_#{user}#-{hash}.csv` (spaces in the task name replaced by
underscores); and — because the serialization of the sorted list is proved
injective (`jsonDumpsList_inj`), so the hash is the only lossy step — under
hash-injectivity (no MD5 collision among the inputs) any change of the path
multiset changes the filename. -/
theorem c4_session_identity (md5hex : List Char → List Char)
    (username task_name : String) (p1 p2 : List String) :
    (p1.Perm p2 →
      annotations_file md5hex p1 username task_name =
        annotations_file md5hex p2 username task_name) ∧
    (annotations_file md5hex p1 username task_name =
      (task_name.toList.map fun c => if c = ' ' then '_' else c) ++
        ('_' :: '#' :: username.toList ++
          ('#' :: '-' :: (md5hex (imageListJson p1) ++ ['.', 'c', 's', 'v'])))) ∧
    (Function.Injective md5hex → ¬p1.Perm p2 →
      annotations_file md5hex p1 username task_name ≠
        annotations_file md5hex p2 username task_name) := by
  refine ⟨?_, rfl, ?_⟩
  · intro h
    unfold annotations_file imageListJson
    rw [insertionSort_eq_of_perm p1 p2 h]
  · intro hinj hnp heq
    apply hnp
    unfold annotations_file at heq
    have h1 := List.append_cancel_left heq
    injection h1 with h1a h1'
    injection h1' with h1b h2
    have h3 := List.append_cancel_left h2
    injection h3 with h3a h3'
    injection h3' with h3b h4
    have h5 := List.append_cancel_right h4
    have h6 := hinj h5
    unfold imageListJson at h6
    exact perm_of_insertionSort_eq p1 p2 (jsonDumpsList_inj _ _ h6)

/-- Witness for `c4_session_identity`: with the identity function in place
of the digest, permuted path lists give the same filename, and a renamed
path gives a different filename. -/
theorem c4_session_identity_witness :
    annotations_file id ["b.png", "a.png"] "user1" "mytask" =
      annotations_file id ["a.png", "b.png"] "user1" "mytask" ∧
    annotations_file id ["a.png"] "user1" "mytask" ≠
      annotations_file id ["c.png"] "user1" "mytask" := by
  constructor
  · exact (c4_session_identity id "user1" "mytask"
      ["b.png", "a.png"] ["a.png", "b.png"]).1 (by decide)
  · exact (c4_session_identity id "user1" "mytask"
      ["a.png"] ["c.png"]).2.2 (fun a b h => h) (by decide)

end MapReader
